import Mathlib

/-!
Verification of the core scoring and deduplication logic of the
university-career-sourcing-agent repository (`src/dedupe.py`,
`src/scoring.py`), via a shallow embedding in Lean.

Strings are modelled as `List Char`; Python's substring test (`in`),
`str.lower`, `str.strip`, and pandas operations (`drop_duplicates`,
`sort_values`, boolean-mask row selection) are embedded explicitly.
Floats appearing in the source are small dyadic constants (0.5 .. 100.0),
modelled exactly by `ℚ`.
-/

abbrev Str := List Char

/-- `startsWithCh hay need` is true when `need` is a leading run of `hay`. -/
def startsWithCh : Str → Str → Bool
  | _, [] => true
  | [], _ :: _ => false
  | a :: as, b :: bs => decide (a = b) && startsWithCh as bs

/-- Python's `need in hay`: contiguous-substring containment. -/
def hasSub : Str → Str → Bool
  | [], need => need.isEmpty
  | a :: as, need => startsWithCh (a :: as) need || hasSub as need

/-- Python `str.lower` on the ASCII strings this program handles. -/
def lowerStr (s : Str) : Str := s.map Char.toLower

/-- Whitespace as stripped by Python `str.strip` (the characters that
occur in this program's data). -/
def isWsCh (c : Char) : Bool :=
  decide (c = ' ') || decide (c = '\t') || decide (c = '\n') || decide (c = '\r')

/-- Python `str.strip`: drop leading and trailing whitespace. -/
def stripStr (s : Str) : Str :=
  ((s.dropWhile isWsCh).reverse.dropWhile isWsCh).reverse

/-- One row of the longest-common-subsequence dynamic program:
`lcsRow x b prev left` extends the row `prev` (for the previous prefix)
by the character `x`; `left` is the value just computed to the left. -/
def lcsRow (x : Char) : Str → List Nat → Nat → List Nat
  | [], _, _ => []
  | bj :: bs, pj :: pj1 :: ps, left =>
      let cur := if x = bj then pj + 1 else max pj1 left
      cur :: lcsRow x bs (pj1 :: ps) cur
  | _ :: _, _, _ => []

/-- Length of a longest common subsequence, by the standard row-by-row
dynamic program (needed so that concrete similarity ratios evaluate). -/
def lcs (a b : Str) : Nat :=
  let init := List.replicate (b.length + 1) 0
  let last := a.foldl (fun prev x => 0 :: lcsRow x b prev 0) init
  last.getD b.length 0

/-- Modelled from the spec: `rapidfuzz.fuzz.ratio`, the similarity used by
`fuzzy_match_contacts` — a normalized edit-distance (indel) ratio on a
0–100 scale: `(1 - indel_dist/(|a|+|b|)) * 100` with
`indel_dist = |a|+|b| - 2*lcs(a,b)`, i.e. `200*lcs/(|a|+|b|)`; the ratio of
two empty strings is 100.  The rapidfuzz library itself is not part of this
repository's sources. -/
def fuzzRatio (a b : Str) : ℚ :=
  if a.length + b.length = 0 then 100
  else mkRat (200 * (lcs a b)) (a.length + b.length)

/-- A contact row, with the fields that `dedupe.py` reads.
`linkedin_url = none` models a missing (NaN) cell; `total_score` is only
meaningful when the frame's `total_score` column exists (the `hasScore`
flag of the dedupe functions below). -/
structure Contact where
  linkedin_url : Option Str
  school : Str
  name : Str
  total_score : ℚ
deriving DecidableEq

/-- pandas `astype(str)` on a `linkedin_url` cell: a missing (NaN) value
stringifies to `"nan"`. -/
def pyStrUrl : Option Str → Str
  | none => "nan".toList
  | some s => s

/-- The normalized dedupe key of `dedupe_by_linkedin_url`:
`astype(str).str.lower().str.strip()`. -/
def normUrl (c : Contact) : Str := stripStr (lowerStr (pyStrUrl c.linkedin_url))

/-- pandas `drop_duplicates(subset=[key], keep='first')`: keep each row
whose key has not been seen before it. -/
def dropDupFirst (seen : List Str) : List Contact → List Contact
  | [] => []
  | c :: cs =>
      if seen.contains (normUrl c) then dropDupFirst seen cs
      else c :: dropDupFirst (normUrl c :: seen) cs

/-- `dedupe_by_linkedin_url` from `src/dedupe.py`: normalize the LinkedIn
URL and drop duplicate keys, keeping the first occurrence.  The helper
column add/drop and `reset_index` have no effect in this model. -/
def dedupe_by_linkedin_url (rows : List Contact) : List Contact :=
  if rows.isEmpty then rows else dropDupFirst [] rows

/-- The composite fuzzy key of `fuzzy_match_contacts`:
`f"{school} {name}".strip()`. -/
def fuzzyKey (c : Contact) : Str := stripStr (c.school ++ ' ' :: c.name)

/-- `fuzzy_match_contacts` from `src/dedupe.py`: false when either
composite key is empty, otherwise compare the lowercased keys' similarity
ratio against the threshold. -/
def fuzzy_match_contacts (thr : ℚ) (c1 c2 : Contact) : Bool :=
  let k1 := fuzzyKey c1
  let k2 := fuzzyKey c2
  if k1.isEmpty || k2.isEmpty then false
  else decide (thr ≤ fuzzRatio (lowerStr k1) (lowerStr k2))

/-- Stable descending insertion by `total_score` (an element is placed
before the first element whose score is `≤` its own). -/
def insertByScore (x : Nat × Contact) : List (Nat × Contact) → List (Nat × Contact)
  | [] => [x]
  | y :: ys =>
      if y.2.total_score ≤ x.2.total_score then x :: y :: ys
      else y :: insertByScore x ys

/-- `df.sort_values('total_score', ascending=False)` on rows labelled by
their original integer index, modelled as a stable descending sort. -/
def sortByScoreDesc (l : List (Nat × Contact)) : List (Nat × Contact) :=
  l.foldr insertByScore []

/-- The inner `for j in range(i+1, len(df))` loop of `dedupe_fuzzy_match`:
positions already in `dropped` are skipped, and each match adds `j`. -/
def fuzzyInner (thr : ℚ) (arr : List Contact) (ci : Contact) (i : Nat)
    (dropped : List Nat) : List Nat :=
  (List.range' (i + 1) (arr.length - (i + 1))).foldl
    (fun d j =>
      if d.contains j then d
      else
        match arr.get? j with
        | some cj => if fuzzy_match_contacts thr ci cj then j :: d else d
        | none => d)
    dropped

/-- The pairwise marking loops of `dedupe_fuzzy_match`: the set
`indices_to_drop` of iloc POSITIONS (into the sorted frame) that were
marked for removal. -/
def fuzzyMark (thr : ℚ) (arr : List Contact) : List Nat :=
  (List.range arr.length).foldl
    (fun dropped i =>
      if dropped.contains i then dropped
      else
        match arr.get? i with
        | some ci => fuzzyInner thr arr ci i dropped
        | none => dropped)
    []

/-- `dedupe_fuzzy_match` from `src/dedupe.py`.  `hasScore` is whether the
`total_score` column exists.  Rows are labelled with their original index
(the frame's RangeIndex); after the optional sort, the marking loops work
on iloc positions into the sorted frame, but the final row selection
`df[~df.index.isin(indices_to_drop)]` tests the index LABELS against the
set of marked positions — exactly as the source does. -/
def dedupe_fuzzy_match (thr : ℚ) (hasScore : Bool) (rows : List Contact) :
    List Contact :=
  if rows.isEmpty then rows
  else
    let labeled := (List.range rows.length).zip rows
    let sorted := if hasScore then sortByScoreDesc labeled else labeled
    let arr := sorted.map (·.2)
    let dropped := fuzzyMark thr arr
    (sorted.filter (fun p => !(dropped.contains p.1))).map (·.2)

/-- `dedupe_contacts` from `src/dedupe.py`: Stage 1 exact dedupe, Stage 2
fuzzy dedupe, and the removed count = original count − final count. -/
def dedupe_contacts (thr : ℚ) (hasScore : Bool) (rows : List Contact) :
    List Contact × Nat :=
  let r1 := dedupe_by_linkedin_url rows
  let r2 := dedupe_fuzzy_match thr hasScore r1
  (r2, rows.length - r2.length)

/-- The persona tags returned by `classify_persona` in `src/scoring.py`
(the strings 'Employer Relations', 'Career Services',
'Experiential Learning', 'Unknown'). -/
inductive Persona where
  | EmployerRelations
  | CareerServices
  | ExperientialLearning
  | Unknown
deriving DecidableEq

/-- The `persona_keywords` dict: one keyword list per non-Unknown persona,
in the dict's insertion order Employer Relations, Career Services,
Experiential Learning. -/
structure PersonaKeywords where
  er : List Str
  cs : List Str
  el : List Str
deriving DecidableEq

/-- The `seniority_keywords` dict, insertion order senior, mid, junior. -/
structure SeniorityKeywords where
  senior : List Str
  mid : List Str
  junior : List Str
deriving DecidableEq

/-- `sum(1 for keyword in keywords if keyword in title_lower)`. -/
def countKw (kws : List Str) (titleLower : Str) : Nat :=
  (kws.filter (fun k => hasSub titleLower k)).length

/-- Python `max(items, key=lambda x: x[1])` starting from `best`: a later
item replaces the current best only when strictly greater, so the FIRST
maximal item wins. -/
def pyMaxBySnd (best : Persona × Nat) : List (Persona × Nat) → Persona × Nat
  | [] => best
  | x :: xs => pyMaxBySnd (if best.2 < x.2 then x else best) xs

/-- The selection step of `classify_persona` on the three match counts:
build `persona_scores` (only personas with positive count, in dict order),
return 'Unknown' when it is empty, else the first persona with the
maximal count. -/
def pickPersona (a b c : Nat) : Persona :=
  let entries : List (Persona × Nat) :=
    [(Persona.EmployerRelations, a), (Persona.CareerServices, b),
     (Persona.ExperientialLearning, c)]
  match entries.filter (fun e => decide (0 < e.2)) with
  | [] => Persona.Unknown
  | e :: es => (pyMaxBySnd e es).1

/-- `classify_persona` from `src/scoring.py`.  `title = none` models a
null/NaN title (`pd.isna`), `some []` an empty string (`not title`). -/
def classify_persona (pk : PersonaKeywords) : Option Str → Persona
  | none => Persona.Unknown
  | some t =>
      if t = [] then Persona.Unknown
      else
        let tl := lowerStr t
        pickPersona (countKw pk.er tl) (countKw pk.cs tl) (countKw pk.el tl)

/-- `score_seniority` from `src/scoring.py`: tiers tested in the dict's
insertion order senior, mid, junior, with fixed weights 3.0/2.0/1.0 and
0.5 when nothing matches or the title is null/empty. -/
def score_seniority (sk : SeniorityKeywords) : Option Str → ℚ
  | none => 1/2
  | some t =>
      if t = [] then 1/2
      else
        let tl := lowerStr t
        if sk.senior.any (fun k => hasSub tl k) then 3
        else if sk.mid.any (fun k => hasSub tl k) then 2
        else if sk.junior.any (fun k => hasSub tl k) then 1
        else 1/2

/-- `score_title_relevance` from `src/scoring.py`. -/
def score_title_relevance (pk : PersonaKeywords) (title : Option Str)
    (persona : Persona) : ℚ :=
  match title with
  | none => 1/2
  | some t =>
      if t = [] then 1/2
      else
        match persona with
        | Persona.Unknown => 1/2
        | p =>
            let tl := lowerStr t
            let kws := match p with
              | Persona.EmployerRelations => pk.er
              | Persona.CareerServices => pk.cs
              | _ => pk.el
            if kws = [] then 1/2
            else
              let m := countKw kws tl
              if 2 ≤ m then 2
              else if m = 1 then 3/2
              else if ["career", "employer", "learning"].any
                  (fun w => hasSub tl w.toList) then 1
              else 1/2

/-- The `persona_keywords` part of `get_default_keywords`. -/
def default_persona_keywords : PersonaKeywords where
  er := ["employer relations", "employer partnerships", "employer engagement",
         "employer services", "corporate relations", "recruiter relations",
         "employer outreach", "partnerships", "employer development",
         "industry partnerships"].map String.toList
  cs := ["career services", "career center", "career counseling",
         "career counselor", "career advisor", "career development",
         "career planning", "career guidance", "professional development",
         "student success"].map String.toList
  el := ["experiential learning", "internship", "co-op",
         "cooperative education", "work-integrated learning", "practicum",
         "field experience", "experiential education",
         "internships"].map String.toList

/-- The `seniority_keywords` part of `get_default_keywords`. -/
def default_seniority_keywords : SeniorityKeywords where
  senior := ["director", "senior director", "associate director",
             "executive director", "head", "chief", "vice president", "vp",
             "dean", "assistant dean", "lead"].map String.toList
  mid := ["manager", "coordinator", "specialist", "advisor", "counselor",
          "associate", "assistant director", "program manager"].map String.toList
  junior := ["assistant", "intern", "fellow", "associate",
             "coordinator"].map String.toList

/-- `get_default_keywords` from `src/scoring.py`. -/
def get_default_keywords : PersonaKeywords × SeniorityKeywords :=
  (default_persona_keywords, default_seniority_keywords)

/-- What `load_config_keywords` can encounter at the filesystem/JSON
boundary: no file, a file whose contents fail to parse as JSON, or a
parsed document with its `title_keywords` and `role_seniority_keywords`
lists (absent keys default to `[]` via `config.get`). -/
inductive ConfigFile where
  | missing
  | malformed
  | parsed (title_keywords : List Str) (role_seniority_keywords : List Str)

/-- The persona-dict construction of `load_config_keywords`: each
`title_keywords` entry is routed by raw substring tags. -/
def mapPersonaKeywords (tks : List Str) : PersonaKeywords where
  er := tks.filter (fun kw =>
    hasSub kw "employer".toList || hasSub kw "corporate".toList ||
    hasSub kw "industry".toList || hasSub kw "partnerships".toList)
  cs := tks.filter (fun kw =>
    hasSub kw "career".toList || hasSub kw "professional".toList ||
    hasSub kw "student success".toList)
  el := tks.filter (fun kw =>
    hasSub kw "experiential".toList || hasSub kw "internship".toList ||
    hasSub kw "co-op".toList)

/-- The seniority-dict construction of `load_config_keywords`: senior and
mid are filtered from `role_seniority_keywords` and PATCHED INDIVIDUALLY
with (distinct, shorter) built-in lists when empty; junior is always the
fixed literal list. -/
def mapSeniorityKeywords (rsks : List Str) : SeniorityKeywords :=
  let sen := rsks.filter (fun kw =>
    hasSub kw "director".toList || hasSub kw "head".toList ||
    hasSub kw "lead".toList)
  let mid := rsks.filter (fun kw => hasSub kw "manager".toList)
  { senior := if sen = [] then
        ["director", "head", "lead", "chief", "vp",
         "vice president"].map String.toList
      else sen
    mid := if mid = [] then
        ["manager", "coordinator", "specialist", "advisor",
         "counselor"].map String.toList
      else mid
    junior := ["assistant", "intern", "fellow", "coordinator"].map String.toList }

/-- `load_config_keywords` from `src/scoring.py`.  Only
`FileNotFoundError` is caught, so a malformed file propagates the
`json.JSONDecodeError` (modelled as `.error`).  A parsed config falls back
to the full defaults only when ALL THREE mapped persona lists are empty
(`if not any(persona_keywords.values())`). -/
def load_config_keywords : ConfigFile →
    Except Unit (PersonaKeywords × SeniorityKeywords)
  | ConfigFile.missing => Except.ok get_default_keywords
  | ConfigFile.malformed => Except.error ()
  | ConfigFile.parsed tks rsks =>
      let pk := mapPersonaKeywords tks
      if pk.er = [] ∧ pk.cs = [] ∧ pk.el = [] then
        Except.ok get_default_keywords
      else
        Except.ok (pk, mapSeniorityKeywords rsks)

/-- A cell of the contacts table: a (possibly missing/NaN) string, a
number, or a persona tag (stored by pandas as one of the four persona
strings; typed here for clarity). -/
inductive Cell where
  | str : Option Str → Cell
  | num : ℚ → Cell
  | pers : Persona → Cell
deriving DecidableEq

/-- A DataFrame row: column name / cell pairs in column order. -/
abbrev Row := List (String × Cell)

/-- `row[name]` when the column may be absent. -/
def lookupCol (name : String) (r : Row) : Option Cell :=
  (r.find? (fun p => p.1 == name)).map (·.2)

/-- `df[name] = value` at row level: overwrite the column in place when it
exists, otherwise append it as the last column. -/
def setCol (name : String) (v : Cell) (r : Row) : Row :=
  if r.any (fun p => p.1 == name) then
    r.map (fun p => if p.1 == name then (name, v) else p)
  else r ++ [(name, v)]

/-- `row['title']` as the Option-string the scorers consume (the pipeline
guarantees a `title` column; a missing or non-string cell reads as NaN). -/
def getTitle (r : Row) : Option Str :=
  match lookupCol "title" r with
  | some (Cell.str t) => t
  | _ => none

/-- `row['persona']` (always set by the time it is read in
`classify_and_score_contacts`). -/
def getPersona (r : Row) : Persona :=
  match lookupCol "persona" r with
  | some (Cell.pers p) => p
  | _ => Persona.Unknown

/-- `calculate_contact_score` from `src/scoring.py`:
`(score_seniority(title) + score_title_relevance(title, persona)) / 2`,
recomputed from the row's `title` and `persona` cells. -/
def calculate_contact_score (pk : PersonaKeywords) (sk : SeniorityKeywords)
    (r : Row) : ℚ :=
  (score_seniority sk (getTitle r) +
    score_title_relevance pk (getTitle r) (getPersona r)) / 2

/-- `classify_and_score_contacts` from `src/scoring.py`: on a copy of the
frame, assign the `persona`, `seniority_score`, `relevance_score` and
`total_score` columns in that order (so `relevance_score` and
`total_score` read the just-assigned `persona` cell). -/
def classify_and_score_contacts (pk : PersonaKeywords)
    (sk : SeniorityKeywords) (df : List Row) : List Row :=
  df.map (fun r =>
    let r1 := setCol "persona" (Cell.pers (classify_persona pk (getTitle r))) r
    let r2 := setCol "seniority_score"
      (Cell.num (score_seniority sk (getTitle r))) r1
    let r3 := setCol "relevance_score"
      (Cell.num (score_title_relevance pk (getTitle r) (getPersona r1))) r2
    setCol "total_score" (Cell.num (calculate_contact_score pk sk r3)) r3)

example : hasSub "abcdef".toList "cde".toList = true := by decide
example : hasSub "abcdef".toList "ce".toList = false := by decide
example : stripStr "  ab c  ".toList = "ab c".toList := by decide
example : lcs "abczefghijklm".toList "abcdefghijklm".toList = 12 := by decide
example : lcs "abczefghijklm".toList "abcdefghiwklm".toList = 11 := by decide
example : (92 : ℚ) ≤ fuzzRatio "abczefghijklm".toList "abcdefghijklm".toList := by
  decide

/-! ### Concrete contacts used in the dedupe counterexamples -/

/-- Lowest-scored contact; fuzzy key `"abcdefghiwklm"`. -/
def cA : Contact := ⟨some "u0".toList, [], "abcdefghiwklm".toList, 1⟩

/-- Top-scored contact; fuzzy key `"abczefghijklm"`. -/
def cB : Contact := ⟨some "u1".toList, [], "abczefghijklm".toList, 3⟩

/-- Middle-scored contact; fuzzy key `"abcdefghijklm"`;
near-duplicate of both `cA` and `cB`. -/
def cC : Contact := ⟨some "u2".toList, [], "abcdefghijklm".toList, 2⟩

/-- Two contacts with an empty (but present) `linkedin_url` and different
names/schools. -/
def cBlank1 : Contact := ⟨some [], "s1".toList, "alice".toList, 0⟩

def cBlank2 : Contact := ⟨some [], "s2".toList, "bob".toList, 0⟩

/-- Two contacts with a missing (NaN) `linkedin_url`. -/
def cNan1 : Contact := ⟨none, "s1".toList, "carol".toList, 0⟩

def cNan2 : Contact := ⟨none, "s2".toList, "dave".toList, 0⟩

/-- Invariant of the Stage-1 dedupe recursion: kept rows have pairwise
distinct normalized keys, none of which was already seen. -/
theorem dropDupFirst_pairwise (seen : List Str) (l : List Contact) :
    (dropDupFirst seen l).Pairwise (fun a b => normUrl a ≠ normUrl b) ∧
      ∀ c ∈ dropDupFirst seen l, normUrl c ∉ seen := by
  induction l generalizing seen with
  | nil => simp [dropDupFirst]
  | cons c cs ih =>
    by_cases h : normUrl c ∈ seen
    · rw [show dropDupFirst seen (c :: cs) = dropDupFirst seen cs from by
        simp [dropDupFirst, h]]
      exact ih seen
    · rw [show dropDupFirst seen (c :: cs)
          = c :: dropDupFirst (normUrl c :: seen) cs from by
        simp [dropDupFirst, h]]
      obtain ⟨hp, hmem⟩ := ih (normUrl c :: seen)
      refine ⟨List.Pairwise.cons (fun b hb => ?_) hp, ?_⟩
      · have hb' := hmem b hb
        simp only [List.mem_cons, not_or] at hb'
        exact fun hc => hb'.1 hc.symm
      · intro x hx
        rcases List.mem_cons.mp hx with rfl | hx
        · exact h
        · have hx' := hmem x hx
          simp only [List.mem_cons, not_or] at hx'
          exact hx'.2

/-- A missing (NaN) `linkedin_url` normalizes to the key `"nan"`. -/
theorem normUrl_none {c : Contact} (h : c.linkedin_url = none) :
    normUrl c = "nan".toList := by
  simp only [normUrl, h]
  decide

/-- A list with pairwise-distinct normalized keys holds at most one
record with a missing `linkedin_url` (they would share the key "nan"). -/
theorem length_filter_none_le_one {l : List Contact}
    (hp : l.Pairwise (fun a b => normUrl a ≠ normUrl b)) :
    (l.filter (fun c => c.linkedin_url.isNone)).length ≤ 1 := by
  have hpf := hp.filter (fun c => c.linkedin_url.isNone)
  rcases hfl : l.filter (fun c => c.linkedin_url.isNone) with _ | ⟨x, _ | ⟨y, rest⟩⟩
  · simp [hfl]
  · simp [hfl]
  · exfalso
    rw [hfl] at hpf
    have hxy := (List.pairwise_cons.mp hpf).1 y (by simp)
    have hx : x.linkedin_url.isNone := by
      have : x ∈ l.filter (fun c => c.linkedin_url.isNone) := by
        rw [hfl]; simp
      simpa using List.of_mem_filter this
    have hy : y.linkedin_url.isNone := by
      have : y ∈ l.filter (fun c => c.linkedin_url.isNone) := by
        rw [hfl]; simp
      simpa using List.of_mem_filter this
    exact hxy ((normUrl_none (Option.isNone_iff_eq_none.mp hx)).trans
      (normUrl_none (Option.isNone_iff_eq_none.mp hy)).symm)

/-- C1: in Stage 1 exact dedupe, among records sharing a normalized
`linkedin_url` only the first is kept — but records whose normalized URL
is EMPTY also share a key (the empty string) and ARE collapsed: here two
distinct contacts with `linkedin_url = ""` come out as one. -/
theorem blank_urls_are_collapsed :
    dedupe_by_linkedin_url [cBlank1, cBlank2] = [cBlank1] ∧
      cBlank1.name ≠ cBlank2.name := by decide

/-- C10: a missing (NaN) `linkedin_url` is stringified to `"nan"` before
normalization, so (1) every such record gets the normalized key `"nan"`,
(2) the Stage-1 output never keeps two missing-URL records, and (3) of two
missing-URL records the first is kept and the second collapsed into it. -/
theorem missing_urls_collapse :
    (∀ c : Contact, c.linkedin_url = none → normUrl c = "nan".toList) ∧
      (∀ l : List Contact,
        ((dedupe_by_linkedin_url l).filter
          (fun c => c.linkedin_url.isNone)).length ≤ 1) ∧
      (∀ c₁ c₂ : Contact, c₁.linkedin_url = none → c₂.linkedin_url = none →
        dedupe_by_linkedin_url [c₁, c₂] = [c₁]) := by
  refine ⟨fun c h => normUrl_none h, fun l => ?_, fun c₁ c₂ h₁ h₂ => ?_⟩
  · by_cases hl : l = []
    · subst hl; simp [dedupe_by_linkedin_url]
    · rw [show dedupe_by_linkedin_url l = dropDupFirst [] l from by
        simp [dedupe_by_linkedin_url, hl]]
      exact length_filter_none_le_one (dropDupFirst_pairwise [] l).1
  · have e₁ := normUrl_none h₁
    have e₂ := normUrl_none h₂
    simp [dedupe_by_linkedin_url, dropDupFirst, e₁, e₂]

theorem missing_urls_collapse_witness :
    normUrl cNan1 = "nan".toList ∧
      dedupe_by_linkedin_url [cNan1, cNan2] = [cNan1] :=
  ⟨missing_urls_collapse.1 cNan1 rfl,
    missing_urls_collapse.2.2 cNan1 cNan2 rfl rfl⟩

/-- C2: on `[cA, cB, cC]` (scores 1, 3, 2) the sorted order is
`[cB, cC, cA]` with labels `[1, 2, 0]`; the only fuzzy match among unmarked
pairs is (0, 1) = (cB, cC), so position 1 (cC) is marked — yet the code
drops the row with index LABEL 1, which is cB, the top-scored contact:
output `[cC, cA]` instead of the marked-removal output `[cB, cA]`. -/
theorem fuzzy_dedupe_drops_label_not_position :
    dedupe_fuzzy_match 92 true [cA, cB, cC] = [cC, cA] ∧
      fuzzy_match_contacts 92 cB cC = true ∧
      fuzzy_match_contacts 92 cB cA = false := by decide

/-- C3: `dedupe_contacts` is NOT idempotent: on `[cA, cB, cC]` it returns
`([cC, cA], 1)`, and re-running it on that output returns `([cC], 1)` —
one more contact removed and a changed list, instead of the claimed
unchanged output with `removedCount = 0`. -/
theorem dedupe_not_idempotent :
    dedupe_contacts 92 true [cA, cB, cC] = ([cC, cA], 1) ∧
      dedupe_contacts 92 true [cC, cA] = ([cC], 1) := by decide

/-- Closed form of the `classify_persona` selection step: the first
persona in dict order whose count equals the (positive) maximum, and
Unknown when all counts are zero. -/
theorem pickPersona_spec (a b c : Nat) :
    pickPersona a b c =
      if 0 < a ∧ b ≤ a ∧ c ≤ a then Persona.EmployerRelations
      else if 0 < b ∧ c ≤ b then Persona.CareerServices
      else if 0 < c then Persona.ExperientialLearning
      else Persona.Unknown := by
  rcases Nat.eq_zero_or_pos a with ha | ha <;>
    rcases Nat.eq_zero_or_pos b with hb | hb <;>
      rcases Nat.eq_zero_or_pos c with hc | hc <;>
        simp [pickPersona, pyMaxBySnd, ha, hb, hc] <;>
          split_ifs <;> first | rfl | omega

/-- The per-persona keyword-match count on a title, as computed inside
`classify_persona` (`Unknown` has no keyword list; its count is 0). -/
def personaCount (pk : PersonaKeywords) (t : Str) : Persona → Nat
  | Persona.EmployerRelations => countKw pk.er (lowerStr t)
  | Persona.CareerServices => countKw pk.cs (lowerStr t)
  | Persona.ExperientialLearning => countKw pk.el (lowerStr t)
  | Persona.Unknown => 0

/-- The highest keyword-match count over the three personas. -/
def maxPersonaCount (pk : PersonaKeywords) (t : Str) : Nat :=
  max (personaCount pk t Persona.EmployerRelations)
    (max (personaCount pk t Persona.CareerServices)
      (personaCount pk t Persona.ExperientialLearning))

/-- `classify_persona` on a non-empty title is the selection step applied
to the three counts. -/
theorem classify_persona_some (pk : PersonaKeywords) {t : Str} (ht : t ≠ []) :
    classify_persona pk (some t) =
      pickPersona (personaCount pk t Persona.EmployerRelations)
        (personaCount pk t Persona.CareerServices)
        (personaCount pk t Persona.ExperientialLearning) := by
  simp [classify_persona, ht, personaCount]

/-- C6: null/empty titles classify as Unknown; a title matching no
persona's keywords classifies as Unknown; and a non-empty title matching
at least two keyword phrases of persona `P` and none of any other persona
classifies as `P`. -/
theorem classify_persona_dominant :
    (∀ pk, classify_persona pk none = Persona.Unknown) ∧
      (∀ pk, classify_persona pk (some []) = Persona.Unknown) ∧
      (∀ pk t, personaCount pk t Persona.EmployerRelations = 0 →
        personaCount pk t Persona.CareerServices = 0 →
        personaCount pk t Persona.ExperientialLearning = 0 →
        classify_persona pk (some t) = Persona.Unknown) ∧
      (∀ pk t P, t ≠ [] → P ≠ Persona.Unknown →
        2 ≤ personaCount pk t P →
        (∀ Q, Q ≠ P → personaCount pk t Q = 0) →
        classify_persona pk (some t) = P) := by
  refine ⟨fun pk => rfl, fun pk => rfl, fun pk t h1 h2 h3 => ?_, ?_⟩
  · by_cases ht : t = []
    · subst ht; rfl
    · rw [classify_persona_some pk ht, h1, h2, h3]
      rfl
  · intro pk t P ht hP h2 h0
    rw [classify_persona_some pk ht, pickPersona_spec]
    cases P with
    | EmployerRelations =>
      have hb := h0 Persona.CareerServices (by decide)
      have hc := h0 Persona.ExperientialLearning (by decide)
      rw [if_pos ⟨by omega, by omega, by omega⟩]
    | CareerServices =>
      have ha := h0 Persona.EmployerRelations (by decide)
      have hc := h0 Persona.ExperientialLearning (by decide)
      rw [if_neg (by omega), if_pos ⟨by omega, by omega⟩]
    | ExperientialLearning =>
      have ha := h0 Persona.EmployerRelations (by decide)
      have hb := h0 Persona.CareerServices (by decide)
      rw [if_neg (by omega), if_neg (by omega), if_pos (by omega)]
    | Unknown => exact absurd rfl hP

/-- Keyword table used in the classifier witnesses. -/
def pkW : PersonaKeywords := ⟨["xy".toList], ["cd".toList, "ef".toList], []⟩

theorem classify_persona_dominant_witness :
    classify_persona pkW (some "cdef".toList) = Persona.CareerServices := by
  refine classify_persona_dominant.2.2.2 pkW "cdef".toList
    Persona.CareerServices (by decide) (by decide) (by decide) ?_
  intro Q hQ
  cases Q
  · decide
  · exact absurd rfl hQ
  · decide
  · decide

/-- C7: when two or more personas tie for the strictly highest nonzero
keyword-match count, `classify_persona` returns the first of the tied
personas in the enumeration order Employer Relations, Career Services,
Experiential Learning. -/
theorem classify_persona_tie_break :
    ∀ pk t, t ≠ [] → 0 < maxPersonaCount pk t →
      ((personaCount pk t Persona.EmployerRelations = maxPersonaCount pk t ∧
          personaCount pk t Persona.CareerServices = maxPersonaCount pk t) ∨
        (personaCount pk t Persona.EmployerRelations = maxPersonaCount pk t ∧
          personaCount pk t Persona.ExperientialLearning = maxPersonaCount pk t) ∨
        (personaCount pk t Persona.CareerServices = maxPersonaCount pk t ∧
          personaCount pk t Persona.ExperientialLearning = maxPersonaCount pk t)) →
      classify_persona pk (some t) =
        (if personaCount pk t Persona.EmployerRelations = maxPersonaCount pk t then
          Persona.EmployerRelations
        else if personaCount pk t Persona.CareerServices = maxPersonaCount pk t then
          Persona.CareerServices
        else Persona.ExperientialLearning) := by
  intro pk t ht hm htie
  rw [classify_persona_some pk ht, pickPersona_spec]
  have hmax : maxPersonaCount pk t =
      max (personaCount pk t Persona.EmployerRelations)
        (max (personaCount pk t Persona.CareerServices)
          (personaCount pk t Persona.ExperientialLearning)) := rfl
  by_cases hA : personaCount pk t Persona.EmployerRelations = maxPersonaCount pk t
  · rw [if_pos ⟨by omega, by omega, by omega⟩, if_pos hA]
  · have hnot1 : ¬(0 < personaCount pk t Persona.EmployerRelations ∧
        personaCount pk t Persona.CareerServices
          ≤ personaCount pk t Persona.EmployerRelations ∧
        personaCount pk t Persona.ExperientialLearning
          ≤ personaCount pk t Persona.EmployerRelations) := by
      rintro ⟨_, h2, h3⟩
      exact hA (by omega)
    rw [if_neg hnot1, if_neg hA]
    by_cases hB : personaCount pk t Persona.CareerServices = maxPersonaCount pk t
    · rw [if_pos ⟨by omega, by omega⟩, if_pos hB]
    · rcases htie with ⟨h1, _⟩ | ⟨h1, _⟩ | ⟨h1, _⟩
      · exact absurd h1 hA
      · exact absurd h1 hA
      · exact absurd h1 hB

/-- Keyword table realizing a Career Services / Experiential Learning
tie. -/
def pkT : PersonaKeywords := ⟨[], ["cd".toList], ["cd".toList]⟩

theorem classify_tie_break_witness :
    classify_persona pkT (some "cd".toList) = Persona.CareerServices := by
  have h := classify_persona_tie_break pkT "cd".toList (by decide) (by decide)
    (Or.inr (Or.inr ⟨by decide, by decide⟩))
  rw [h]
  decide

/-- C8: `score_seniority` always returns one of 3, 2, 1, 0.5; null/empty
titles give 0.5; the tiers are tested in priority order senior, mid,
junior with the first match deciding the fixed weight; with no tier match
(e.g. "Student Ambassador" under the default keywords) it is 0.5. -/
theorem score_seniority_spec :
    (∀ sk title, score_seniority sk title = 3 ∨ score_seniority sk title = 2 ∨
      score_seniority sk title = 1 ∨ score_seniority sk title = 1/2) ∧
      (∀ sk, score_seniority sk none = 1/2) ∧
      (∀ sk, score_seniority sk (some []) = 1/2) ∧
      (∀ sk t, t ≠ [] →
        (sk.senior.any (fun k => hasSub (lowerStr t) k) = true →
          score_seniority sk (some t) = 3) ∧
        (sk.senior.any (fun k => hasSub (lowerStr t) k) = false →
          sk.mid.any (fun k => hasSub (lowerStr t) k) = true →
          score_seniority sk (some t) = 2) ∧
        (sk.senior.any (fun k => hasSub (lowerStr t) k) = false →
          sk.mid.any (fun k => hasSub (lowerStr t) k) = false →
          sk.junior.any (fun k => hasSub (lowerStr t) k) = true →
          score_seniority sk (some t) = 1) ∧
        (sk.senior.any (fun k => hasSub (lowerStr t) k) = false →
          sk.mid.any (fun k => hasSub (lowerStr t) k) = false →
          sk.junior.any (fun k => hasSub (lowerStr t) k) = false →
          score_seniority sk (some t) = 1/2)) ∧
      score_seniority default_seniority_keywords
        (some "Student Ambassador".toList) = 1/2 := by
  refine ⟨?_, fun sk => rfl, fun sk => rfl, ?_, by rfl⟩
  · intro sk title
    match title with
    | none => exact Or.inr (Or.inr (Or.inr rfl))
    | some t =>
      simp only [score_seniority]
      split_ifs <;> simp
  · intro sk t ht
    refine ⟨fun h1 => ?_, fun h1 h2 => ?_, fun h1 h2 h3 => ?_,
      fun h1 h2 h3 => ?_⟩
    · simp [score_seniority, ht, h1]
    · simp [score_seniority, ht, h1, h2]
    · simp [score_seniority, ht, h1, h2, h3]
    · simp [score_seniority, ht, h1, h2, h3]

theorem score_seniority_spec_witness :
    score_seniority default_seniority_keywords
      (some "Director of Career Services".toList) = 3 :=
  (score_seniority_spec.2.2.2.1 default_seniority_keywords
    "Director of Career Services".toList (by decide)).1 (by rfl)

/-- C4: a malformed (unparseable) config file is NOT given the
missing-file treatment: `load_config_keywords` catches only
`FileNotFoundError`, so the `json.JSONDecodeError` of a malformed file
propagates (`.error`) instead of producing the built-in defaults. -/
theorem malformed_config_raises :
    load_config_keywords ConfigFile.malformed = Except.error () ∧
      load_config_keywords ConfigFile.missing
        = Except.ok get_default_keywords :=
  ⟨rfl, rfl⟩

/-- A config whose `title_keywords` route a keyword only to
Employer Relations, with no `role_seniority_keywords`. -/
def cfgOnlyER : ConfigFile :=
  ConfigFile.parsed ["employer relations".toList] []

/-- C5 counterexample: loading `cfgOnlyER` keeps EMPTY Career Services
and Experiential Learning keyword lists (the fallback needs all THREE
mapped lists empty), producing a mixture of the custom persona table and
built-in per-tier seniority lists — not the built-in defaults. -/
theorem keyword_fallback_not_atomic :
    load_config_keywords cfgOnlyER =
      Except.ok (mapPersonaKeywords ["employer relations".toList],
        mapSeniorityKeywords []) ∧
      (mapPersonaKeywords ["employer relations".toList]).er ≠ [] ∧
      (mapPersonaKeywords ["employer relations".toList]).cs = [] ∧
      (mapPersonaKeywords ["employer relations".toList]).el = [] ∧
      (mapPersonaKeywords ["employer relations".toList],
        mapSeniorityKeywords []) ≠ get_default_keywords :=
  ⟨rfl, by decide, by decide, by decide, by decide⟩

/-- A `PersonaKeywords` value is the all-empty table iff its three
components are empty. -/
theorem pk_eq_empty_iff (p : PersonaKeywords) :
    p = ⟨[], [], []⟩ ↔ (p.er = [] ∧ p.cs = [] ∧ p.el = []) := by
  cases p
  simp [PersonaKeywords.mk.injEq]

/-- C5 amended: the all-defaults fallback triggers exactly when the
config routes no keyword to ANY of the three personas; otherwise the
(possibly partly empty) custom persona table is kept as is and the
seniority table is built with per-tier fallbacks. -/
theorem keyword_fallback_shape :
    ∀ tks rsks,
      (mapPersonaKeywords tks = ⟨[], [], []⟩ →
        load_config_keywords (ConfigFile.parsed tks rsks) =
          Except.ok get_default_keywords) ∧
      (mapPersonaKeywords tks ≠ ⟨[], [], []⟩ →
        load_config_keywords (ConfigFile.parsed tks rsks) =
          Except.ok (mapPersonaKeywords tks, mapSeniorityKeywords rsks)) := by
  intro tks rsks
  constructor
  · intro h
    simp only [load_config_keywords]
    split_ifs with hc
    · rfl
    · exact absurd ((pk_eq_empty_iff _).mp h) hc
  · intro h
    simp only [load_config_keywords]
    split_ifs with hc
    · exact absurd ((pk_eq_empty_iff _).mpr hc) h
    · rfl

theorem keyword_fallback_shape_witness :
    load_config_keywords (ConfigFile.parsed ["employer relations".toList] [])
      = Except.ok (mapPersonaKeywords ["employer relations".toList],
        mapSeniorityKeywords []) :=
  (keyword_fallback_shape ["employer relations".toList] []).2 (by decide)

/-- Setting an absent column appends it as the last column. -/
theorem setCol_absent {name : String} {v : Cell} {r : Row}
    (h : lookupCol name r = none) : setCol name v r = r ++ [(name, v)] := by
  have hf : r.find? (fun p => p.1 == name) = none := by
    cases hfind : r.find? (fun p => p.1 == name) with
    | none => rfl
    | some x => rw [lookupCol, hfind] at h; simp at h
  have ha : r.any (fun p => p.1 == name) = false := by
    rw [List.any_eq_false]
    intro x hx
    simpa using List.find?_eq_none.mp hf x hx
  simp [setCol, ha]

/-- A column lookup skips appended cells that do not carry the name. -/
theorem lookupCol_append_right_none {name : String} (r : Row) {s : Row}
    (hs : lookupCol name s = none) :
    lookupCol name (r ++ s) = lookupCol name r := by
  have hf : s.find? (fun p => p.1 == name) = none := by
    cases hfind : s.find? (fun p => p.1 == name) with
    | none => rfl
    | some x => rw [lookupCol, hfind] at hs; simp at hs
  cases hfind : r.find? (fun p => p.1 == name) with
  | none => simp [lookupCol, List.find?_append, hfind, hf]
  | some x => simp [lookupCol, List.find?_append, hfind]

/-- A column lookup falls through cells that do not carry the name. -/
theorem lookupCol_append_left_none {name : String} {r : Row} (s : Row)
    (h : lookupCol name r = none) :
    lookupCol name (r ++ s) = lookupCol name s := by
  have hf : r.find? (fun p => p.1 == name) = none := by
    cases hfind : r.find? (fun p => p.1 == name) with
    | none => rfl
    | some x => rw [lookupCol, hfind] at h; simp at h
  simp [lookupCol, List.find?_append, hf]

/-- The four derived cells `classify_and_score_contacts` computes for a
row `r`, in assignment order, with
`total_score = (seniority_score + relevance_score) / 2`. -/
def addDerivedCols (pk : PersonaKeywords) (sk : SeniorityKeywords)
    (r : Row) : Row :=
  r ++ [("persona", Cell.pers (classify_persona pk (getTitle r))),
    ("seniority_score", Cell.num (score_seniority sk (getTitle r))),
    ("relevance_score", Cell.num (score_title_relevance pk (getTitle r)
      (classify_persona pk (getTitle r)))),
    ("total_score", Cell.num ((score_seniority sk (getTitle r) +
      score_title_relevance pk (getTitle r)
        (classify_persona pk (getTitle r))) / 2))]

/-- C9 (amended): on any frame none of whose rows already has one of the
four derived columns, `classify_and_score_contacts` returns each row
unchanged with exactly the four derived cells appended, the last being
`(seniority_score + relevance_score) / 2`. -/
theorem classify_and_score_appends (pk : PersonaKeywords)
    (sk : SeniorityKeywords) (df : List Row)
    (h : ∀ r ∈ df, lookupCol "persona" r = none ∧
      lookupCol "seniority_score" r = none ∧
      lookupCol "relevance_score" r = none ∧
      lookupCol "total_score" r = none) :
    classify_and_score_contacts pk sk df = df.map (addDerivedCols pk sk) := by
  unfold classify_and_score_contacts
  refine List.map_congr_left ?_
  intro r hr
  obtain ⟨hp, hs, hrel, htot⟩ := h r hr
  dsimp only
  rw [setCol_absent hp]
  have hgp : getPersona (r ++ [("persona",
      Cell.pers (classify_persona pk (getTitle r)))]) =
      classify_persona pk (getTitle r) := by
    unfold getPersona
    rw [lookupCol_append_left_none _ hp]
    rfl
  rw [hgp]
  have hs1 : lookupCol "seniority_score" (r ++ [("persona",
      Cell.pers (classify_persona pk (getTitle r)))]) = none := by
    rw [lookupCol_append_right_none r (by rfl)]; exact hs
  rw [setCol_absent hs1]
  have hr1 : lookupCol "relevance_score" ((r ++ [("persona",
      Cell.pers (classify_persona pk (getTitle r)))]) ++
      [("seniority_score", Cell.num (score_seniority sk (getTitle r)))])
      = none := by
    rw [lookupCol_append_right_none _ (by rfl),
      lookupCol_append_right_none r (by rfl)]
    exact hrel
  rw [setCol_absent hr1]
  have ht1 : lookupCol "total_score" (((r ++ [("persona",
      Cell.pers (classify_persona pk (getTitle r)))]) ++
      [("seniority_score", Cell.num (score_seniority sk (getTitle r)))]) ++
      [("relevance_score", Cell.num (score_title_relevance pk (getTitle r)
        (classify_persona pk (getTitle r))))]) = none := by
    rw [lookupCol_append_right_none _ (by rfl),
      lookupCol_append_right_none _ (by rfl),
      lookupCol_append_right_none r (by rfl)]
    exact htot
  rw [setCol_absent ht1]
  have htT : getTitle (((r ++ [("persona",
      Cell.pers (classify_persona pk (getTitle r)))]) ++
      [("seniority_score", Cell.num (score_seniority sk (getTitle r)))]) ++
      [("relevance_score", Cell.num (score_title_relevance pk (getTitle r)
        (classify_persona pk (getTitle r))))]) = getTitle r := by
    unfold getTitle
    rw [lookupCol_append_right_none _ (by rfl),
      lookupCol_append_right_none _ (by rfl),
      lookupCol_append_right_none r (by rfl)]
  have hgp3 : getPersona (((r ++ [("persona",
      Cell.pers (classify_persona pk (getTitle r)))]) ++
      [("seniority_score", Cell.num (score_seniority sk (getTitle r)))]) ++
      [("relevance_score", Cell.num (score_title_relevance pk (getTitle r)
        (classify_persona pk (getTitle r))))]) =
      classify_persona pk (getTitle r) := by
    unfold getPersona
    rw [lookupCol_append_right_none _ (by rfl),
      lookupCol_append_right_none _ (by rfl),
      lookupCol_append_left_none _ hp]
    rfl
  unfold calculate_contact_score
  rw [htT, hgp3]
  simp [addDerivedCols]

/-- A one-column row carrying only a (missing) title. -/
def rowPlain : Row := [("title", Cell.str none)]

theorem classify_and_score_appends_witness :
    classify_and_score_contacts default_persona_keywords
      default_seniority_keywords [rowPlain] =
      [rowPlain].map (addDerivedCols default_persona_keywords
        default_seniority_keywords) :=
  classify_and_score_appends default_persona_keywords
    default_seniority_keywords [rowPlain] (by decide)

/-- A row that already carries a `persona` column. -/
def rowPre : Row := [("title", Cell.str none), ("persona", Cell.num 7)]

/-- C9 counterexample: on a row that already has a `persona` column the
function OVERWRITES that pre-existing cell in place (no new column is
added for it), so a pre-existing value changes. -/
theorem classify_and_score_overwrites_persona :
    lookupCol "persona" rowPre = some (Cell.num 7) ∧
      lookupCol "persona"
        ((classify_and_score_contacts default_persona_keywords
          default_seniority_keywords [rowPre]).headD []) =
        some (Cell.pers Persona.Unknown) :=
  ⟨rfl, rfl⟩
